import Mathlib

/-!
Verification of the ChickenCartel Order Tracker core logic.

This file is a shallow embedding of the two logic pieces of the
repository — the order-id email extractor
(`custom_components/chickencartel/email_parser.py`, with the UUID
validator from `config_flow.py`) and the order-status polling
coordinator (`custom_components/chickencartel/coordinator.py`, with the
status table from `const.py`) — together with theorems settling the
behavioural claims about them.

Strings are modelled as `List Char` (Python `str`); each Python regex
used by the source is rendered as a deterministic scanner that is
provably equivalent to the regex's leftmost-match semantics for that
particular pattern (the equivalence argument is noted at each
definition).
-/

namespace ChickenCartel

/-! ### Character classes

`isPyWs` is the ASCII part of Python's `\s` class (and of `str.strip`);
`isHexDigit` is the regex class `[0-9a-f]` under `re.IGNORECASE`. -/

def isPyWs (c : Char) : Bool :=
  c == ' ' || c == '\t' || c == '\n' || c == '\r' || c == '\x0b' || c == '\x0c'

def isHexDigit (c : Char) : Bool :=
  (decide (48 ≤ c.toNat) && decide (c.toNat ≤ 57)) ||
  (decide (97 ≤ c.toNat) && decide (c.toNat ≤ 102)) ||
  (decide (65 ≤ c.toNat) && decide (c.toNat ≤ 70))

/-- Python `str.strip()`: drop leading and trailing whitespace. -/
def pyStrip (cs : List Char) : List Char :=
  ((cs.dropWhile isPyWs).reverse.dropWhile isPyWs).reverse

/-- Python `str.lower()` (ASCII; all characters the source compares are ASCII). -/
def lowerChars (cs : List Char) : List Char := cs.map Char.toLower

/-! ### The UUID shape `[0-9a-f]{8}-[0-9a-f]{4}-[0-9a-f]{4}-[0-9a-f]{4}-[0-9a-f]{12}`
(`config_flow.py`, `UUID_PATTERN`, compiled with `re.IGNORECASE`). -/

/-- Consume exactly `n` hex digits, returning them and the rest. -/
def grabHex : Nat → List Char → Option (List Char × List Char)
  | 0, cs => some ([], cs)
  | _ + 1, [] => none
  | n + 1, c :: cs =>
    if isHexDigit c then
      match grabHex n cs with
      | some (p, r) => some (c :: p, r)
      | none => none
    else none

/-- Consume one literal hyphen. -/
def grabDash : List Char → Option (List Char)
  | c :: cs => if c == '-' then some cs else none
  | [] => none

/-- Match the 36-character UUID shape at the head of the list; return the
matched characters and the remainder.  The regex has fixed repetition
counts and no alternation, so its matching is deterministic. -/
def matchUuid (cs : List Char) : Option (List Char × List Char) :=
  match grabHex 8 cs with
  | none => none
  | some (g1, r1) =>
    match grabDash r1 with
    | none => none
    | some r2 =>
      match grabHex 4 r2 with
      | none => none
      | some (g2, r3) =>
        match grabDash r3 with
        | none => none
        | some r4 =>
          match grabHex 4 r4 with
          | none => none
          | some (g3, r5) =>
            match grabDash r5 with
            | none => none
            | some r6 =>
              match grabHex 4 r6 with
              | none => none
              | some (g4, r7) =>
                match grabDash r7 with
                | none => none
                | some r8 =>
                  match grabHex 12 r8 with
                  | none => none
                  | some (g5, _r9) =>
                    some (g1 ++ '-' :: g2 ++ '-' :: g3 ++ '-' :: g4 ++ '-' :: g5, _r9)

/-- The whole string matches `^uuid$` with nothing after it (the
trailing-newline case of `$` is handled separately where it matters). -/
def isUuidExact (cs : List Char) : Bool :=
  match matchUuid cs with
  | some (_, []) => true
  | _ => false

/-- `config_flow.validate_order_id`: `bool(UUID_PATTERN.match(order_id.strip()))`.
`re.match` anchors at the start; the pattern ends in `$`, and after
`strip()` the string has no trailing newline, so this is an exact match. -/
def validate_order_id (cs : List Char) : Bool := isUuidExact (pyStrip cs)

/-- `UUID_PATTERN.findall(text)`, first (and only possible) match.  The
pattern is anchored by `^` and `$` (no `re.MULTILINE`), so a match can
only start at position 0 and must reach the end of the string, or the
position just before a single trailing newline. -/
def bareUuidFirst (cs : List Char) : Option (List Char) :=
  match matchUuid cs with
  | some (u, []) => some u
  | some (u, ['\n']) => some u
  | _ => none

/-! ### The labelled patterns of `email_parser.ORDER_ID_PATTERNS`

Each is rendered as a matcher at a fixed start position plus a leftmost
scan (`scanFirst`), which is exactly `re.findall`'s leftmost-first
semantics restricted to the first match — the only use the source makes
of `findall` results here is `matches[0]` and non-emptiness. -/

/-- Case-insensitive literal at the head; returns the rest on success. -/
def startsWithCI : List Char → List Char → Option (List Char)
  | [], cs => some cs
  | _ :: _, [] => none
  | l :: ls, c :: cs => if c.toLower == l.toLower then startsWithCI ls cs else none

/-- The regex class `[:\s]`. -/
def isColonWs (c : Char) : Bool := c == ':' || isPyWs c

/-- `[:\s]+` (greedy) followed by the UUID group.  Greedily consuming the
maximal run of separators is equivalent to the regex with backtracking:
a shorter run would force the UUID to start on a `[:\s]` character, and
no hex digit is a colon or whitespace. -/
def sepThenUuid : List Char → Option (List Char)
  | [] => none
  | c :: r =>
    if isColonWs c then
      match matchUuid (r.dropWhile isColonWs) with
      | some (u, _) => some u
      | none => none
    else none

/-- Pattern 2, `order\s*id[:\s]+(<uuid>)`, at a fixed position.  Dropping
the maximal `\s*` run is equivalent: `i` is not a whitespace character. -/
def pat2At (cs : List Char) : Option (List Char) :=
  match startsWithCI "order".toList cs with
  | none => none
  | some r =>
    match startsWithCI "id".toList (r.dropWhile isPyWs) with
    | none => none
    | some r2 => sepThenUuid r2

/-- Pattern 3, `order[:\s]+(<uuid>)`, at a fixed position. -/
def pat3At (cs : List Char) : Option (List Char) :=
  match startsWithCI "order".toList cs with
  | none => none
  | some r => sepThenUuid r

/-- Pattern 4, `bestelnummer[:\s]+(<uuid>)`, at a fixed position. -/
def pat4At (cs : List Char) : Option (List Char) :=
  match startsWithCI "bestelnummer".toList cs with
  | none => none
  | some r => sepThenUuid r

/-- Lazy gap `.*?` (which does not cross `\n`) followed by the UUID
group: the earliest UUID start not separated by a newline. -/
def findUuidNoNl : List Char → Option (List Char)
  | [] => none
  | c :: cs =>
    match matchUuid (c :: cs) with
    | some (u, _) => some u
    | none => if c == '\n' then none else findUuidNoNl cs

/-- Pattern 5, `chickencartel\.nl.*?(<uuid>)`, at a fixed position. -/
def pat5At (cs : List Char) : Option (List Char) :=
  match startsWithCI "chickencartel.nl".toList cs with
  | none => none
  | some r => findUuidNoNl r

/-- The regex class `["']`. -/
def isQuote (c : Char) : Bool := c == '"' || c == '\''

/-- Lazy gap `[^"']*?` followed by the UUID group: the earliest UUID
start not separated by a quote character. -/
def findUuidNoQuote : List Char → Option (List Char)
  | [] => none
  | c :: cs =>
    match matchUuid (c :: cs) with
    | some (u, _) => some u
    | none => if isQuote c then none else findUuidNoQuote cs

/-- Pattern 6, `href=["']?[^"']*?(<uuid>)`, at a fixed position.  If a
quote follows `href=`, the greedy `["']?` must consume it (declining it
would force `[^"']` to match the quote itself); otherwise it matches
empty. -/
def pat6At (cs : List Char) : Option (List Char) :=
  match startsWithCI "href=".toList cs with
  | none => none
  | some [] => none
  | some (c :: r) => if isQuote c then findUuidNoQuote r else findUuidNoQuote (c :: r)

/-- Leftmost match: try the position matcher at every suffix, leftmost
first — the first element of `re.findall` for an unanchored pattern. -/
def scanFirst (f : List Char → Option (List Char)) : List Char → Option (List Char)
  | [] => f []
  | c :: cs =>
    match f (c :: cs) with
    | some u => some u
    | none => scanFirst f cs

/-- First matches of the six `ORDER_ID_PATTERNS`, in the source's order:
bare UUID, `order id:`, `order:`, `bestelnummer:`, vendor-URL, `href`. -/
def ORDER_ID_PATTERNS (cs : List Char) : List (Option (List Char)) :=
  [ bareUuidFirst cs,
    scanFirst pat2At cs,
    scanFirst pat3At cs,
    scanFirst pat4At cs,
    scanFirst pat5At cs,
    scanFirst pat6At cs ]

/-- The pattern loop of `extract_order_id_from_text`: for each pattern in
order, if it has a match, validate the first match; on success return it
stripped and lowercased, otherwise fall through to the next pattern. -/
def tryPatterns : List (Option (List Char)) → Option (List Char)
  | [] => none
  | m :: rest =>
    match m with
    | some u => if validate_order_id u then some (lowerChars (pyStrip u)) else tryPatterns rest
    | none => tryPatterns rest

/-- `email_parser.extract_order_id_from_text` (`if not text: return None`,
then the pattern loop). -/
def extract_order_id_from_text (cs : List Char) : Option (List Char) :=
  if cs = [] then none else tryPatterns (ORDER_ID_PATTERNS cs)

/-! ### `extract_order_id_from_email` -/

/-- The character class `[^"'>\s]` of the href-URL regex. -/
def isHrefUrlChar (c : Char) : Bool :=
  !(c == '"' || c == '\'' || c == '>' || isPyWs c)

/-- One match of `href=["']?([^"'>\s]+)` at a fixed position: the greedy
optional quote is forced as in pattern 6, and the greedy `+` group is
the maximal nonempty run of URL characters.  Returns the captured URL
and the remainder after the match. -/
def hrefAt (cs : List Char) : Option (List Char × List Char) :=
  match startsWithCI "href=".toList cs with
  | none => none
  | some [] => none
  | some (c :: r) =>
    let body := if isQuote c then r else c :: r
    let url := body.takeWhile isHrefUrlChar
    if url = [] then none else some (url, body.drop url.length)

/-- All matches of the href-URL regex, scanning left to right and
resuming after each match's end, as `re.findall` does.  Fuelled by the
input length: every step shortens the remaining input by at least one
character (a match consumes the five `href=` characters and a nonempty
URL), so the fuel never runs out before the input does. -/
def hrefFindallAux : Nat → List Char → List (List Char)
  | 0, _ => []
  | _ + 1, [] => []
  | n + 1, c :: cs =>
    match hrefAt (c :: cs) with
    | some (url, rest) => url :: hrefFindallAux n rest
    | none => hrefFindallAux n cs

/-- `re.findall(r'href=["\']?([^"\'>\s]+)', html_body, re.IGNORECASE)`. -/
def hrefFindall (cs : List Char) : List (List Char) :=
  hrefFindallAux cs.length cs

/-- `re.sub(r"<[^>]+>", " ", html)`: each maximal `<...>` span with a
nonempty interior and a closing `>` becomes a single space; a `<` with
no nonempty `>`-terminated interior is left alone and scanning resumes
at the next character.  Fuelled by the input length, which suffices as
every step consumes at least one input character. -/
def stripTagsAux : Nat → List Char → List Char
  | 0, cs => cs
  | _ + 1, [] => []
  | n + 1, c :: cs =>
    if c == '<' then
      let run := cs.takeWhile (fun d => !(d == '>'))
      match cs.drop run.length with
      | '>' :: r => if run = [] then c :: stripTagsAux n cs else ' ' :: stripTagsAux n r
      | _ => c :: stripTagsAux n cs
    else c :: stripTagsAux n cs

def stripTags (cs : List Char) : List Char := stripTagsAux cs.length cs

/-- `re.sub(r"\s+", " ", s)`: collapse each maximal whitespace run to a
single space.  Fuelled by the input length, which suffices as every
step consumes at least one input character. -/
def collapseWsAux : Nat → List Char → List Char
  | 0, cs => cs
  | _ + 1, [] => []
  | n + 1, c :: cs =>
    if isPyWs c then ' ' :: collapseWsAux n (cs.dropWhile isPyWs)
    else c :: collapseWsAux n cs

def collapseWs (cs : List Char) : List Char := collapseWsAux cs.length cs

/-- The tag-stripped, whitespace-collapsed, stripped HTML text
(`email_parser.py` lines 99–103). -/
def htmlText (cs : List Char) : List Char := pyStrip (collapseWs (stripTags cs))

def listStartsWith : List Char → List Char → Bool
  | [], _ => true
  | _ :: _, [] => false
  | a :: la, b :: lb => a == b && listStartsWith la lb

/-- Python's substring test `needle in hay`. -/
def containsSub (needle : List Char) : List Char → Bool
  | [] => listStartsWith needle []
  | c :: cs => listStartsWith needle (c :: cs) || containsSub needle cs

/-- `" ".join(sources)`. -/
def joinSpace : List (List Char) → List Char
  | [] => []
  | [x] => x
  | x :: y :: rest => x ++ ' ' :: joinSpace (y :: rest)

/-- Python truthiness of an optional string: `None` and `""` are falsy. -/
def isTruthy : Option (List Char) → Bool
  | some (_ :: _) => true
  | _ => false

/-- The `is_chickencartel_email` sender classification
(`email_parser.py` lines 69–77): lowercase the sender and test the four
vendor substrings; a missing or empty sender is not a vendor sender. -/
def vendorSender (sender : Option (List Char)) : Bool :=
  match sender with
  | none => false
  | some s =>
    if s = [] then false
    else
      let sl := lowerChars s
      containsSub "chickencartel".toList sl ||
      containsSub "noreply@chickencartel".toList sl ||
      containsSub "@chickencartel.nl".toList sl ||
      containsSub "dehamburgerij.nl".toList sl

/-- The aggressive vendor-sender pass (`email_parser.py` lines 113–120):
`UUID_PATTERN.findall(combined_text)`, then return the first match that
validates, lowercased.  The anchored pattern yields at most one match,
so the `for` loop degenerates to this single check. -/
def aggressivePass (combined : List Char) : Option (List Char) :=
  match bareUuidFirst combined with
  | some m => if validate_order_id m then some (lowerChars (pyStrip m)) else none
  | none => none

/-- The tail of `extract_order_id_from_email` after the combined text is
built: the pattern search over the concatenation, then — only for a
vendor sender with nonempty combined text — the aggressive pass. -/
def finishExtract (is_chickencartel_email : Bool) (combined : List Char) :
    Option (List Char) :=
  match extract_order_id_from_text combined with
  | some oid => some oid
  | none =>
    if is_chickencartel_email && !(combined = []) then aggressivePass combined else none

/-- `email_parser.extract_order_id_from_email`: classify the sender,
accumulate subject and plain body, and when an HTML body is present
first search the raw HTML (returning immediately on a hit) and
otherwise also accumulate the href URLs and the tag-stripped HTML text;
then search the space-joined concatenation, falling back to the
aggressive vendor pass. -/
def extract_order_id_from_email
    (subject body html_body sender : Option (List Char)) : Option (List Char) :=
  let is_chickencartel_email := vendorSender sender
  let base := (if isTruthy subject then [subject.getD []] else []) ++
              (if isTruthy body then [body.getD []] else [])
  if isTruthy html_body then
    let html := html_body.getD []
    match extract_order_id_from_text html with
    | some oid => some oid
    | none =>
      finishExtract is_chickencartel_email
        (joinSpace (base ++ hrefFindall html ++ [htmlText html]))
  else
    finishExtract is_chickencartel_email (joinSpace base)

/-! ### Order Status Poller (`coordinator.py`, `const.py`)

The coordinator state carries the fields the source mutates: the tracked
order id, the configured `_polling_interval` (fixed at construction),
the `_polling_active` flag, the host-visible `update_interval`
(`none` models Python `None`, `some n` models `timedelta(seconds=n)`),
and `self.data`, the last result stored by the host's
`DataUpdateCoordinator` wrapper.

One refresh is modelled as a pure step: the HTTP interaction is an input
(`FetchResponse`), the JSON body is abstracted to its single field read
by the code (`data.get("OrderHarmonyStatus")`, an optional integer), and
a raised `UpdateFailed` is the `Except.error` case.  On a normal return
the host stores the returned dict into `self.data`; the step function
returns that post-refresh state together with the returned dict. -/

/-- The outcome of the `aiohttp` GET: an HTTP response with its status
code and parsed `OrderHarmonyStatus` field, or a network-level
`aiohttp.ClientError` with its message. -/
inductive FetchResponse where
  | http (status : Nat) (orderHarmonyStatus : Option Int)
  | netError (msg : String)
deriving DecidableEq

/-- The result dict built by `_async_update_data`.  `raw_data = none`
models the error dicts, which carry no `raw_data` key; on the 200 path
it is `some` of the (abstracted) payload. -/
structure OrderData where
  order_id : String
  order_harmony_status : Option Int
  status : String
  error : Option String
  raw_data : Option (Option Int)
deriving DecidableEq

structure CoordState where
  order_id : String
  polling_interval : Nat
  polling_active : Bool
  update_interval : Option Nat
  data : Option OrderData
deriving DecidableEq

/-- `const.STATUS_MAP` as a partial lookup (Python `dict.get` without a
default). -/
def STATUS_MAP (code : Int) : Option String :=
  if code = -1 then some "failed"
  else if code = 0 then some "cancelled"
  else if code = 1 then some "received"
  else if code = 2 then some "pos"
  else if code = 3 then some "accepted"
  else if code = 4 then some "preparing"
  else if code = 5 then some "waiting_for_driver"
  else if code = 6 then some "en_route"
  else if code = 7 then some "completed"
  else none

/-- `STATUS_MAP.get(harmony_status, "unknown")` where `harmony_status`
is `data.get("OrderHarmonyStatus")` and may be absent (`None`). -/
def statusFor (code : Option Int) : String :=
  match code with
  | some c => (STATUS_MAP c).getD "unknown"
  | none => "unknown"

/-- `const.FINAL_STATES`. -/
def FINAL_STATES : List String := ["completed", "cancelled", "failed"]

/-- `ChickenCartelCoordinator.__init__`: polling starts active with
`update_interval = timedelta(seconds=polling_interval)` and no data. -/
def initCoordinator (order_id : String) (polling_interval : Nat) : CoordState :=
  { order_id := order_id
    polling_interval := polling_interval
    polling_active := true
    update_interval := some polling_interval
    data := none }

/-- `ChickenCartelCoordinator._stop_polling`. -/
def stop_polling (s : CoordState) : CoordState :=
  { s with polling_active := false, update_interval := none }

/-- One refresh cycle: `ChickenCartelCoordinator._async_update_data`
followed by the host storing a normally-returned result into
`self.data`.  The guard `not self._polling_active and self.data`
(`self.data` is truthy exactly when it is a non-`None`, nonempty dict;
every dict the code stores is nonempty) short-circuits to the cached
data.  A 404 and a network error return degraded dicts without touching
the polling fields; any other non-200 status raises `UpdateFailed`
before any mutation; a 200 maps the status and stops polling on a final
state. -/
def asyncUpdateData (s : CoordState) (resp : FetchResponse) :
    Except String (CoordState × OrderData) :=
  if h : s.polling_active = false ∧ s.data.isSome then
    .ok (s, s.data.get h.2)
  else
    match resp with
    | .netError msg =>
      let result : OrderData :=
        { order_id := s.order_id, order_harmony_status := none,
          status := "unknown", error := some msg, raw_data := none }
      .ok ({ s with data := some result }, result)
    | .http st body =>
      if st = 404 then
        let result : OrderData :=
          { order_id := s.order_id, order_harmony_status := none,
            status := "unknown", error := some "Order not found", raw_data := none }
        .ok ({ s with data := some result }, result)
      else if st ≠ 200 then
        .error ("API returned status " ++ toString st)
      else
        let harmony_status := body
        let status := statusFor harmony_status
        let result : OrderData :=
          { order_id := s.order_id, order_harmony_status := harmony_status,
            status := status, error := none, raw_data := some body }
        if status ∈ FINAL_STATES then
          .ok ({ stop_polling s with data := some result }, result)
        else
          .ok ({ s with data := some result }, result)

/-- A run of refresh cycles (an exception leaves the coordinator state
as it was, since `UpdateFailed` is raised before any mutation). -/
def refreshRun (s : CoordState) : List FetchResponse → CoordState
  | [] => s
  | r :: rs =>
    match asyncUpdateData s r with
    | .ok (s', _) => refreshRun s' rs
    | .error _ => refreshRun s rs

/-- Python `str.strip().lower()` lifted to `String`. -/
def normalizeId (s : String) : String := String.mk (lowerChars (pyStrip s.toList))

/-- Python `str.lower()` lifted to `String`. -/
def strLower (s : String) : String := String.mk (lowerChars s.toList)

/-- `ChickenCartelCoordinator.update_order_id`: compare
`new_order_id.strip().lower()` with `self.order_id.lower()`; on
equality do nothing, otherwise store the normalized id, re-activate
polling with the original interval, clear `self.data`, and request an
immediate refresh.  The returned flag records whether
`async_request_refresh` was called. -/
def update_order_id (s : CoordState) (new_order_id : String) : CoordState × Bool :=
  if normalizeId new_order_id = strLower s.order_id then (s, false)
  else
    ({ s with order_id := normalizeId new_order_id
              polling_active := true
              update_interval := some s.polling_interval
              data := none }, true)

/-! ### Email Monitor (`email_monitor.py`, lines 51–58)

`_async_update_data` wraps the whole check cycle in
`try ... except Exception`; the cycle's outcome is modelled as
`Except String Unit` (a raised exception message, or success), and the
current timestamp as an input string. -/

structure EmailMonitorData where
  status : String
  last_check : Option String
  error : Option String
deriving DecidableEq

/-- `EmailMonitor._async_update_data`. -/
def emailMonitorUpdateData (checkOutcome : Except String Unit) (now : String) :
    EmailMonitorData :=
  match checkOutcome with
  | .ok _ => { status := "monitoring", last_check := some now, error := none }
  | .error e => { status := "error", last_check := none, error := some e }

/-- The coordinator's polling-state invariant: the `_polling_active`
flag is `false` exactly when `update_interval` is cleared, and `true`
exactly when `update_interval` equals the configured polling interval. -/
def CoordInv (s : CoordState) : Prop :=
  (s.polling_active = false ↔ s.update_interval = none) ∧
  (s.polling_active = true ↔ s.update_interval = some s.polling_interval)

/-- Concrete coordinator state used in witnesses: freshly constructed. -/
def exState : CoordState := initCoordinator "abc" 15

/-- Concrete result of a refresh that saw `OrderHarmonyStatus = 7`. -/
def exDoneData : OrderData :=
  { order_id := "abc", order_harmony_status := some 7, status := "completed",
    error := none, raw_data := some (some 7) }

/-- Concrete stopped coordinator state holding `exDoneData`. -/
def exDoneState : CoordState :=
  { order_id := "abc", polling_interval := 15, polling_active := false,
    update_interval := none, data := some exDoneData }


/-! ## Theorems -/

/-! ### Helper lemmas about the UUID matcher -/

theorem dropWhile_id_of_false {p : Char → Bool} (cs : List Char)
    (h : ∀ c ∈ cs, p c = false) : cs.dropWhile p = cs := by
  cases cs with
  | nil => rfl
  | cons c cs' => simp [List.dropWhile_cons, h c (by simp)]

theorem pyStrip_id (cs : List Char) (h : ∀ c ∈ cs, isPyWs c = false) :
    pyStrip cs = cs := by
  unfold pyStrip
  rw [dropWhile_id_of_false cs h,
      dropWhile_id_of_false cs.reverse (by intro c hc; exact h c (List.mem_reverse.mp hc))]
  exact List.reverse_reverse cs

theorem hex_not_ws (c : Char) (h : isHexDigit c = true) : isPyWs c = false := by
  by_contra hw
  rw [Bool.not_eq_false] at hw
  have hcases : c = ' ' ∨ c = '\t' ∨ c = '\n' ∨ c = '\r' ∨ c = '\x0b' ∨ c = '\x0c' := by
    simpa [isPyWs, or_assoc] using hw
  rcases hcases with hc | hc | hc | hc | hc | hc <;> subst hc <;> exact absurd h (by decide)

theorem grabHex_split :
    ∀ (n : Nat) (cs p r : List Char), grabHex n cs = some (p, r) →
      cs = p ++ r ∧ ∀ c ∈ p, isHexDigit c = true := by
  intro n
  induction n with
  | zero =>
    intro cs p r h
    simp only [grabHex] at h
    cases h
    exact ⟨rfl, by simp⟩
  | succ n ih =>
    intro cs p r h
    cases cs with
    | nil => exact Option.noConfusion h
    | cons c cs' =>
      simp only [grabHex] at h
      by_cases hc : isHexDigit c
      · rw [if_pos hc] at h
        cases hg : grabHex n cs' with
        | none => rw [hg] at h; exact Option.noConfusion h
        | some pr =>
          obtain ⟨p', r'⟩ := pr
          rw [hg] at h
          obtain ⟨he, hall⟩ := ih cs' p' r' hg
          cases h
          subst he
          refine ⟨rfl, fun x hx => ?_⟩
          rcases List.mem_cons.mp hx with hx | hx
          · subst hx; exact hc
          · exact hall x hx
      · rw [if_neg hc] at h
        exact Option.noConfusion h

theorem grabDash_split (cs r : List Char) (h : grabDash cs = some r) :
    cs = '-' :: r := by
  cases cs with
  | nil => exact Option.noConfusion h
  | cons c cs' =>
    simp only [grabDash] at h
    split at h
    · cases h
      rename_i hc
      rw [show c = '-' from by simpa using hc]
    · exact Option.noConfusion h

theorem matchUuid_split (cs u r : List Char) (h : matchUuid cs = some (u, r)) :
    cs = u ++ r ∧ ∀ c ∈ u, isHexDigit c = true ∨ c = '-' := by
  simp only [matchUuid] at h
  split at h
  · exact Option.noConfusion h
  · rename_i g1 r1 h1
    split at h
    · exact Option.noConfusion h
    · rename_i r2 hd1
      split at h
      · exact Option.noConfusion h
      · rename_i g2 r3 h2
        split at h
        · exact Option.noConfusion h
        · rename_i r4 hd2
          split at h
          · exact Option.noConfusion h
          · rename_i g3 r5 h3
            split at h
            · exact Option.noConfusion h
            · rename_i r6 hd3
              split at h
              · exact Option.noConfusion h
              · rename_i g4 r7 h4
                split at h
                · exact Option.noConfusion h
                · rename_i r8 hd4
                  split at h
                  · exact Option.noConfusion h
                  · rename_i g5 r9 h5
                    obtain ⟨e1, a1⟩ := grabHex_split 8 cs g1 r1 h1
                    have e2 := grabDash_split r1 r2 hd1
                    obtain ⟨e3, a2⟩ := grabHex_split 4 r2 g2 r3 h2
                    have e4 := grabDash_split r3 r4 hd2
                    obtain ⟨e5, a3⟩ := grabHex_split 4 r4 g3 r5 h3
                    have e6 := grabDash_split r5 r6 hd3
                    obtain ⟨e7, a4⟩ := grabHex_split 4 r6 g4 r7 h4
                    have e8 := grabDash_split r7 r8 hd4
                    obtain ⟨e9, a5⟩ := grabHex_split 12 r8 g5 r9 h5
                    cases h
                    subst e1; subst e2; subst e3; subst e4; subst e5
                    subst e6; subst e7; subst e8; subst e9
                    constructor
                    · simp [List.append_assoc]
                    · intro c hc
                      simp only [List.mem_append, List.mem_cons, or_assoc] at hc
                      rcases hc with hc | hc | hc | hc | hc | hc | hc | hc | hc
                      · exact Or.inl (a1 c hc)
                      · exact Or.inr hc
                      · exact Or.inl (a2 c hc)
                      · exact Or.inr hc
                      · exact Or.inl (a3 c hc)
                      · exact Or.inr hc
                      · exact Or.inl (a4 c hc)
                      · exact Or.inr hc
                      · exact Or.inl (a5 c hc)

/-- Claim C1, counterexample: the concatenated text source (the subject
alone here) contains a bare UUID-shaped token, yet the extractor
returns nothing — `UUID_PATTERN` is anchored by `^` and `$`, so as the
first entry of `ORDER_ID_PATTERNS` it cannot match a UUID embedded in
surrounding text, and no labelled pattern applies either. -/
theorem claim_C1_counterexample :
    isUuidExact "68b9e014-3378-4bb3-b121-5a5200d1453b".toList = true ∧
    containsSub "68b9e014-3378-4bb3-b121-5a5200d1453b".toList
      "ticket 68b9e014-3378-4bb3-b121-5a5200d1453b closed".toList = true ∧
    extract_order_id_from_email
      (some "ticket 68b9e014-3378-4bb3-b121-5a5200d1453b closed".toList)
      none none none = none := by
  decide

/-- Claim C1, amended: the bare-UUID pattern is anchored to the whole
string, so it fires exactly when the concatenated text is itself a
UUID-shaped token; in that case the extractor returns the token
lowercased, regardless of sender classification. -/
theorem claim_C1_amended (subject : List Char) (sender : Option (List Char))
    (h : isUuidExact subject = true) :
    extract_order_id_from_email (some subject) none none sender =
      some (lowerChars subject) := by
  have hm : matchUuid subject = some (subject, []) := by
    revert h
    unfold isUuidExact
    cases hmm : matchUuid subject with
    | none => exact fun h => Bool.noConfusion h
    | some pr =>
      obtain ⟨u, r⟩ := pr
      cases r with
      | nil =>
        intro _
        obtain ⟨he, -⟩ := matchUuid_split subject u [] hmm
        rw [List.append_nil] at he
        subst he
        rfl
      | cons x xs => exact fun h => Bool.noConfusion h
  have hchars : ∀ c ∈ subject, isPyWs c = false := by
    intro c hc
    rcases (matchUuid_split subject subject [] hm).2 c hc with hx | hd
    · exact hex_not_ws c hx
    · subst hd; decide
  have hstrip : pyStrip subject = subject := pyStrip_id subject hchars
  have hne : subject ≠ [] := by
    intro he
    rw [he] at hm
    exact Option.noConfusion hm
  have hbare : bareUuidFirst subject = some subject := by
    unfold bareUuidFirst
    rw [hm]
  have hval : validate_order_id subject = true := by
    unfold validate_order_id
    rw [hstrip]
    unfold isUuidExact
    rw [hm]
  have hext : extract_order_id_from_text subject = some (lowerChars subject) := by
    unfold extract_order_id_from_text
    rw [if_neg hne]
    simp [ORDER_ID_PATTERNS, tryPatterns, hbare, hval, hstrip]
  obtain ⟨c0, cs0, rfl⟩ : ∃ c0 cs0, subject = c0 :: cs0 := by
    cases subject with
    | nil => exact absurd rfl hne
    | cons a b => exact ⟨a, b, rfl⟩
  simp [extract_order_id_from_email, isTruthy, finishExtract, joinSpace, hext]

/-- Claim C1, witness of the amended claim: an uppercase bare-UUID
subject with no sender is returned lowercased. -/
theorem claim_C1_amended_witness :
    isUuidExact "ABCDEF01-2345-6789-ABCD-EF0123456789".toList = true ∧
    extract_order_id_from_email
      (some "ABCDEF01-2345-6789-ABCD-EF0123456789".toList) none none none =
      some (lowerChars "ABCDEF01-2345-6789-ABCD-EF0123456789".toList) :=
  ⟨by decide, claim_C1_amended _ none (by decide)⟩

/-- Claim C5, failing input evaluated on the code: the sender is
vendor-classified and the combined text contains a UUID-shaped token,
yet the extractor returns nothing.  The aggressive pass reuses the
anchored `UUID_PATTERN`, whose `findall` can only match when the whole
concatenated text is the token, so — against its own comment, "Look for
any UUID in the text" — it never finds an embedded UUID. -/
theorem claim_C5_failing :
    vendorSender (some "info@dehamburgerij.nl".toList) = true ∧
    isUuidExact "12345678-1234-1234-1234-123456789abc".toList = true ∧
    containsSub "12345678-1234-1234-1234-123456789abc".toList
      "ref 12345678-1234-1234-1234-123456789abc status".toList = true ∧
    extract_order_id_from_email
      (some "ref 12345678-1234-1234-1234-123456789abc status".toList)
      none none (some "info@dehamburgerij.nl".toList) = none := by
  decide

/-- Claim C2: a refresh that computes a mapped status in the terminal
set transitions the active coordinator to Stopped (`_polling_active`
becomes `false` and `update_interval` becomes `None`); a refresh that
computes a non-terminal status leaves the polling state Active and the
interval unchanged. -/
theorem claim_C2 (s : CoordState) (body : Option Int)
    (hactive : s.polling_active = true) (s' : CoordState) (d : OrderData)
    (heq : asyncUpdateData s (.http 200 body) = .ok (s', d)) :
    (statusFor body ∈ FINAL_STATES →
       s'.polling_active = false ∧ s'.update_interval = none) ∧
    (statusFor body ∉ FINAL_STATES →
       s'.polling_active = true ∧ s'.update_interval = s.update_interval) := by
  have hguard : ¬(s.polling_active = false ∧ s.data.isSome) := by simp [hactive]
  simp only [asyncUpdateData] at heq
  rw [dif_neg hguard] at heq
  rw [if_neg (show ¬(200 = 404) by decide), if_neg (show ¬(200 ≠ 200) by decide)] at heq
  by_cases hf : statusFor body ∈ FINAL_STATES
  · rw [if_pos hf] at heq
    cases heq
    exact ⟨fun _ => ⟨rfl, rfl⟩, fun hn => absurd hf hn⟩
  · rw [if_neg hf] at heq
    cases heq
    exact ⟨fun hfin => absurd hfin hf, fun _ => ⟨hactive, rfl⟩⟩

/-- Claim C2, witness: a 200 response carrying status code 7
(`completed`, terminal) stops polling on a fresh coordinator. -/
theorem claim_C2_witness :
    exState.polling_active = true ∧
    asyncUpdateData exState (.http 200 (some 7)) = .ok (exDoneState, exDoneData) ∧
    (statusFor (some 7) ∈ FINAL_STATES →
       exDoneState.polling_active = false ∧ exDoneState.update_interval = none) :=
  ⟨rfl, rfl, (claim_C2 exState (some 7) rfl exDoneState exDoneData rfl).1⟩

/-- Claim C3: a network-level failure during a poll that actually
fetches (the coordinator is active, or holds no cached data) does not
raise: it returns a degraded result with `status = "unknown"` and the
error string, and only `self.data` changes — `_polling_active` and
`update_interval` are untouched. -/
theorem claim_C3 (s : CoordState) (msg : String)
    (hfetch : s.polling_active = true ∨ s.data = none) :
    asyncUpdateData s (.netError msg) =
      .ok ({ s with data := some ⟨s.order_id, none, "unknown", some msg, none⟩ },
           ⟨s.order_id, none, "unknown", some msg, none⟩) := by
  have hguard : ¬(s.polling_active = false ∧ s.data.isSome) := by
    rcases hfetch with h | h <;> simp [h]
  simp only [asyncUpdateData]
  rw [dif_neg hguard]

/-- Claim C3, witness: a connection error against a fresh coordinator. -/
theorem claim_C3_witness :
    (exState.polling_active = true ∨ exState.data = none) ∧
    asyncUpdateData exState (.netError "Cannot connect") =
      .ok ({ exState with data := some ⟨exState.order_id, none, "unknown", some "Cannot connect", none⟩ },
           ⟨exState.order_id, none, "unknown", some "Cannot connect", none⟩) :=
  ⟨Or.inl rfl, claim_C3 exState "Cannot connect" (Or.inl rfl)⟩

/-- Claim C4: `update_order_id` with a new id whose trimmed, lowercased
form equals the lowercased current id is a complete no-op and requests
no refresh; otherwise it stores the normalized id, re-activates polling
with the original configured interval, discards the cached data, and
requests one immediate refresh. -/
theorem claim_C4 (s : CoordState) (nid : String) :
    (normalizeId nid = strLower s.order_id → update_order_id s nid = (s, false)) ∧
    (normalizeId nid ≠ strLower s.order_id →
       update_order_id s nid =
         ({ s with order_id := normalizeId nid, polling_active := true,
                   update_interval := some s.polling_interval, data := none }, true)) := by
  constructor <;> intro h <;> simp [update_order_id, h]

/-- Claim C4, witness: a re-spelling of the same id is a no-op; a
genuinely different id resets the state and forces a refresh. -/
theorem claim_C4_witness :
    (normalizeId " ABC " = strLower (initCoordinator "abc" 15).order_id ∧
     update_order_id (initCoordinator "abc" 15) " ABC " = (initCoordinator "abc" 15, false)) ∧
    (normalizeId "new-id" ≠ strLower (initCoordinator "abc" 15).order_id ∧
     update_order_id (initCoordinator "abc" 15) "new-id" =
       ({ initCoordinator "abc" 15 with
            order_id := normalizeId "new-id", polling_active := true,
            update_interval := some (initCoordinator "abc" 15).polling_interval,
            data := none }, true)) :=
  ⟨⟨by decide, (claim_C4 _ _).1 (by decide)⟩,
   ⟨by decide, (claim_C4 _ _).2 (by decide)⟩⟩

/-- Claim C6: on a fetching refresh, a 404 yields the fixed degraded
dict (`status = "unknown"`, `order_harmony_status = None`,
`error = "Order not found"`) without raising and without touching the
polling fields; a status other than 200 and 404 raises `UpdateFailed`;
and those are the only responses that raise at all — the raise happens
before any mutation, so the coordinator state is left as it was. -/
theorem claim_C6 (s : CoordState) (hfetch : s.polling_active = true ∨ s.data = none) :
    (∀ body, asyncUpdateData s (.http 404 body) =
       .ok ({ s with data := some ⟨s.order_id, none, "unknown", some "Order not found", none⟩ },
            ⟨s.order_id, none, "unknown", some "Order not found", none⟩)) ∧
    (∀ st body, st ≠ 200 → st ≠ 404 →
       asyncUpdateData s (.http st body) = .error ("API returned status " ++ toString st)) ∧
    (∀ resp e, asyncUpdateData s resp = .error e →
       ∃ st body, resp = .http st body ∧ st ≠ 200 ∧ st ≠ 404) := by
  have hguard : ¬(s.polling_active = false ∧ s.data.isSome) := by
    rcases hfetch with h | h <;> simp [h]
  refine ⟨fun body => ?_, fun st body h200 h404 => ?_, fun resp e h => ?_⟩
  · simp only [asyncUpdateData]
    rw [dif_neg hguard]
    simp
  · simp only [asyncUpdateData]
    rw [dif_neg hguard, if_neg h404, if_pos h200]
  · cases resp with
    | netError msg =>
      simp only [asyncUpdateData] at h
      rw [dif_neg hguard] at h
      exact Except.noConfusion h
    | http st body =>
      simp only [asyncUpdateData] at h
      rw [dif_neg hguard] at h
      by_cases h4 : st = 404
      · rw [if_pos h4] at h
        exact Except.noConfusion h
      · rw [if_neg h4] at h
        by_cases h2 : st = 200
        · rw [if_neg (show ¬(st ≠ 200) from not_not_intro h2)] at h
          split at h <;> exact Except.noConfusion h
        · exact ⟨st, body, rfl, h2, h4⟩

/-- Claim C6, witness: a 404 and a 500 against a fresh coordinator. -/
theorem claim_C6_witness :
    (exState.polling_active = true ∨ exState.data = none) ∧
    asyncUpdateData exState (.http 404 none) =
      .ok ({ exState with data := some ⟨exState.order_id, none, "unknown", some "Order not found", none⟩ },
           ⟨exState.order_id, none, "unknown", some "Order not found", none⟩) ∧
    asyncUpdateData exState (.http 500 none) =
      .error ("API returned status " ++ toString 500) :=
  ⟨Or.inl rfl, (claim_C6 exState (Or.inl rfl)).1 none,
   (claim_C6 exState (Or.inl rfl)).2.1 500 none (by decide) (by decide)⟩

/-- Claim C7: the status mapping is a static total function — each of
the nine vendor codes maps to exactly its table label, an absent code
maps to `"unknown"`, and every other integer maps to `"unknown"`. -/
theorem claim_C7 :
    (statusFor (some (-1)) = "failed" ∧ statusFor (some 0) = "cancelled" ∧
     statusFor (some 1) = "received" ∧ statusFor (some 2) = "pos" ∧
     statusFor (some 3) = "accepted" ∧ statusFor (some 4) = "preparing" ∧
     statusFor (some 5) = "waiting_for_driver" ∧ statusFor (some 6) = "en_route" ∧
     statusFor (some 7) = "completed") ∧
    statusFor none = "unknown" ∧
    (∀ c : Int, c ∉ ([-1, 0, 1, 2, 3, 4, 5, 6, 7] : List Int) →
       statusFor (some c) = "unknown") := by
  refine ⟨by decide, rfl, fun c hc => ?_⟩
  simp only [statusFor, STATUS_MAP]
  split_ifs with h h h h h h h h h <;>
    first
      | rfl
      | (subst h; exact absurd (by decide) hc)

/-- Claim C7, witness: the out-of-table code 9 maps to `"unknown"`. -/
theorem claim_C7_witness :
    (9 : Int) ∉ ([-1, 0, 1, 2, 3, 4, 5, 6, 7] : List Int) ∧
    statusFor (some 9) = "unknown" :=
  ⟨by decide, claim_C7.2.2 9 (by decide)⟩

/-- Claim C8: when polling is stopped and cached data exists, a refresh
returns the cached data unchanged with the whole state unchanged, and
does so for every possible fetch outcome — the outcome is never
consulted, so no network call is observable; consequently any run of
further refreshes leaves the state fixed. -/
theorem claim_C8 (s : CoordState) (d : OrderData)
    (hstop : s.polling_active = false) (hdata : s.data = some d) :
    (∀ resp, asyncUpdateData s resp = .ok (s, d)) ∧
    (∀ resps, refreshRun s resps = s) := by
  have hok : ∀ resp, asyncUpdateData s resp = .ok (s, d) := by
    intro resp
    simp [asyncUpdateData, hstop, hdata]
  refine ⟨hok, fun resps => ?_⟩
  induction resps with
  | nil => rfl
  | cons r rs ih =>
    rw [refreshRun, hok r]
    exact ih

/-- Claim C8, witness: the stopped state returns its cached result for
two different fetch outcomes, and a two-refresh run leaves it fixed. -/
theorem claim_C8_witness :
    exDoneState.polling_active = false ∧ exDoneState.data = some exDoneData ∧
    asyncUpdateData exDoneState (.netError "x") = .ok (exDoneState, exDoneData) ∧
    asyncUpdateData exDoneState (.http 200 (some 1)) = .ok (exDoneState, exDoneData) ∧
    refreshRun exDoneState [.http 200 (some 1), .netError "y"] = exDoneState :=
  ⟨rfl, rfl, (claim_C8 _ _ rfl rfl).1 _, (claim_C8 _ _ rfl rfl).1 _,
   (claim_C8 _ _ rfl rfl).2 _⟩

/-- Claim C9: the invariant "`_polling_active` is false exactly when
`update_interval` is `None`, and true exactly when it equals the
configured interval" holds at construction and is preserved by
`_stop_polling`, by every non-raising refresh, and by
`update_order_id`. -/
theorem claim_C9 :
    (∀ oid n, CoordInv (initCoordinator oid n)) ∧
    (∀ s, CoordInv (stop_polling s)) ∧
    (∀ s resp s' d, CoordInv s → asyncUpdateData s resp = .ok (s', d) → CoordInv s') ∧
    (∀ s nid, CoordInv s → CoordInv (update_order_id s nid).1) := by
  refine ⟨fun oid n => ⟨by simp [initCoordinator], by simp [initCoordinator]⟩,
          fun s => ⟨by simp [stop_polling], by simp [stop_polling]⟩,
          fun s resp s' d hinv heq => ?_, fun s nid hinv => ?_⟩
  · cases resp with
    | netError msg =>
      simp only [asyncUpdateData] at heq
      split at heq
      · cases heq
        exact hinv
      · cases heq
        exact hinv
    | http st body =>
      simp only [asyncUpdateData] at heq
      split at heq
      · cases heq
        exact hinv
      · split at heq
        · cases heq
          exact hinv
        · split at heq
          · exact Except.noConfusion heq
          · split at heq
            · cases heq
              exact ⟨by simp [stop_polling], by simp [stop_polling]⟩
            · cases heq
              exact hinv
  · unfold update_order_id
    split
    · exact hinv
    · exact ⟨by simp, by simp⟩

/-- Claim C9, witness: the invariant holds on a fresh coordinator, is
carried through a terminal refresh, and through an id update. -/
theorem claim_C9_witness :
    CoordInv (initCoordinator "abc" 15) ∧
    CoordInv exDoneState ∧
    CoordInv (update_order_id (initCoordinator "abc" 15) "new-id").1 :=
  ⟨claim_C9.1 "abc" 15,
   claim_C9.2.2.1 exState (.http 200 (some 7)) exDoneState exDoneData
     (claim_C9.1 "abc" 15) rfl,
   claim_C9.2.2.2 (initCoordinator "abc" 15) "new-id" (claim_C9.1 "abc" 15)⟩

/-- Claim C10: the Email Monitor's refresh never propagates an
exception — for a successful check cycle it returns the monitoring
dict with the timestamp, and for a raised cycle it returns the error
dict carrying the message. -/
theorem claim_C10 (o : Except String Unit) (now : String) :
    (o = .ok () ∧ emailMonitorUpdateData o now =
       { status := "monitoring", last_check := some now, error := none }) ∨
    (∃ e, o = .error e ∧ emailMonitorUpdateData o now =
       { status := "error", last_check := none, error := some e }) := by
  cases o with
  | ok u => exact Or.inl ⟨rfl, rfl⟩
  | error e => exact Or.inr ⟨e, rfl, rfl⟩

end ChickenCartel
